import Mathlib

/-!
Shallow embedding of the pixel-data exchange layer of `src/texture/mod.rs`
(the `Texture1dData` / `Texture2dData` / `Texture3dData` implementations),
together with proofs of the spec's testable properties.

Modelling conventions:
- Rust `Vec<P>` and slices become `List P`.
- Code that can panic (`panic!`, `unimplemented!`, slice `chunks` with chunk
  size zero, integer division by zero, `Option::unwrap`) is modelled with
  `Option`: `none` is a panic / abort, `some` a normal return.
- `usize` lengths are `Nat` (a Rust collection length always fits in `usize`,
  so `usize` arithmetic on lengths cannot overflow); a `usize`-to-`u32` cast
  (`as u32`) truncates, which is modelled by `% 2 ^ 32`, and `u32`
  multiplication wraps, modelled the same way.
-/

namespace Glium

/-- The value 2 ^ 32, the modulus of Rust `u32` arithmetic. -/
def u32Mod : Nat := 4294967296

/-- Embedding of Rust slice `chunks(w)`: splits `l` into consecutive chunks of
`w` elements, the last chunk possibly shorter.  The Rust method asserts
`w != 0`; callers of this definition model that panic separately (see
`Vec2d.from_vec`, `flip`), so the `w = 0` case here is an arbitrary
unreachable value. -/
def chunks (w : Nat) (l : List α) : List (List α) :=
  match l with
  | [] => []
  | x :: xs =>
    if h : w = 0 then []
    else (x :: xs).take w :: chunks w ((x :: xs).drop w)
termination_by l.length
decreasing_by
  have h1 : 0 < w := Nat.pos_of_ne_zero h
  simp only [List.length_drop, List.length_cons]
  omega

/-- The row-order adapter realized by the chunk-reverse-reflatten step of
`Texture2dData for image::ImageBuffer::{into_vec, from_vec}`:
`data.as_slice().chunks(w).rev().flat_map(|row| row.iter()).map(clone).collect()`.
Rust `chunks` panics when the chunk size is zero, hence `none` there. -/
def flip (w : Nat) (l : List α) : Option (List α) :=
  if w = 0 then none
  else some ((chunks w l).reverse.flatten)

/-- Modelled from the spec: the `ClientFormat` descriptor (channel layout,
per-channel width, numeric kind).  The enum lives in `src/texture/format.rs`,
which is absent from the sources; only constructors the claims exercise are
listed, plus `U8U8U8U8` which appears literally in `src/texture/mod.rs`. -/
inductive ClientFormat where
  | U8
  | U8U8
  | U8U8U8
  | U8U8U8U8
  | F32
deriving DecidableEq

/-- Modelled from the spec: the PixelFormat Registry (`PixelValue` trait,
`src/texture/pixel.rs`, absent from the sources).  `format_of<E>()` is "a
pure, total function of the element type `E`", so it is a per-type constant:
`PixelValue::get_format(None::<P>)` ignores its argument and depends only on
`P`. -/
class PixelValue (P : Type) where
  get_format : ClientFormat

/-- Modelled from the spec: `u8` (embedded as `Nat`) is a standard scalar
pixel element type with a one-channel 8-bit format. -/
instance : PixelValue Nat := ⟨ClientFormat.U8⟩

namespace Vec1d

/-- Source `impl Texture1dData for Vec<P>`, `get_format`: delegates to the registry,
ignoring the (optional) instance. -/
def get_format (P : Type) [PixelValue P] (_ : Option (List P)) : ClientFormat :=
  PixelValue.get_format P

/-- Source `impl Texture1dData for Vec<P>`, `into_vec`: `self`. -/
def into_vec (l : List P) : List P := l

/-- Source `impl Texture1dData for Vec<P>`, `from_vec`: `data`. -/
def from_vec (data : List P) : List P := data

end Vec1d

namespace Slice1d

/-- Source `impl Texture1dData for &[P]`, `into_vec`: `self.to_vec()`. -/
def into_vec (l : List P) : List P := l

/-- Source `impl Texture1dData for &[P]`, `from_vec`: the body is `panic!()`, so
every call aborts; `none` models the panic. -/
def from_vec (_ : List P) : Option (List P) := none

end Slice1d

namespace Vec2d

/-- Source `impl Texture2dData for Vec<Vec<P>>`, `get_format`: delegates to the
registry, ignoring the (optional) instance. -/
def get_format (P : Type) [PixelValue P] (_ : Option (List (List P))) : ClientFormat :=
  PixelValue.get_format P

/-- Source `impl Texture2dData for Vec<Vec<P>>`, `get_dimensions`:
`(self.iter().next().map(|e| e.len()).unwrap_or(0) as u32, self.len() as u32)`.
The `as u32` casts truncate `usize` lengths, hence the `% u32Mod`. -/
def get_dimensions (b : List (List P)) : Nat × Nat :=
  (((b.head?.map List.length).getD 0) % u32Mod, b.length % u32Mod)

/-- Source `impl Texture2dData for Vec<Vec<P>>`, `into_vec`:
`self.into_iter().flat_map(|e| e.into_iter()).collect()`. -/
def into_vec (b : List (List P)) : List P := b.flatten

/-- Source `impl Texture2dData for Vec<Vec<P>>`, `from_vec`:
`data.as_slice().chunks(width as uint).map(|e| e.to_vec()).collect()`.
Rust `chunks` panics when `width == 0` (modelled by `none`); otherwise it
never fails, the last chunk being shorter when `width` does not divide the
length. -/
def from_vec (data : List P) (width : Nat) : Option (List (List P)) :=
  if width = 0 then none
  else some (chunks width data)

end Vec2d

namespace Vec3d

/-- Source `impl Texture3dData for Vec<Vec<Vec<P>>>`, `into_vec`: flattens twice. -/
def into_vec (b : List (List (List P))) : List P := (b.map List.flatten).flatten

/-- Source `impl Texture3dData for Vec<Vec<Vec<P>>>`, `from_vec`: the body is
`unimplemented!()`, so every call aborts; `none` models the panic. -/
def from_vec (_ : List P) (_width _height : Nat) : Option (List (List (List P))) :=
  none

end Vec3d

/-- Embedding of `image::ImageBuffer<Vec<T>, T, P>`: a width, a height and the
raw channel-value storage (`P`'s channel count is passed separately to the
operations, as the source obtains it from `image::Pixel::channel_count`). -/
structure ImageBuffer (T : Type) where
  width : Nat
  height : Nat
  data : List T
deriving DecidableEq

namespace ImageBuffer

/-- The external image library's `ImageBuffer::from_raw(width, height, buf)`:
returns the buffer when `buf` holds exactly `width * height * channels`
channel values, `None` otherwise. -/
def from_raw (c width height : Nat) (data : List T) : Option (ImageBuffer T) :=
  if data.length = width * height * c then some ⟨width, height, data⟩ else none

/-- Source `impl Texture2dData for image::ImageBuffer`, `into_vec`: reverses the
order of the scanlines of the raw storage, each scanline being
`width * channel_count` channel values —
`raw_data.as_slice().chunks(width as uint * channel_count as uint).rev().flat_map(..).collect()`. -/
def into_vec (c : Nat) (buf : ImageBuffer T) : Option (List T) :=
  flip (buf.width * c) buf.data

/-- Source `impl Texture2dData for image::ImageBuffer`, `from_vec`:
`height = data.len() as u32 / (width * pixels_size as u32)` (u32 arithmetic:
the length cast truncates, the product wraps, and division by zero panics),
then the same scanline reversal as `into_vec`, then
`ImageBuffer::from_raw(width, height, data).unwrap()` (`unwrap` of `None`
panics). -/
def from_vec (c : Nat) (data : List T) (width : Nat) : Option (ImageBuffer T) :=
  if width * c % u32Mod = 0 then none
  else
    match flip (width * c) data with
    | none => none
    | some d => from_raw c width ((data.length % u32Mod) / (width * c % u32Mod)) d

end ImageBuffer

end Glium

namespace Glium

theorem chunks_nil (w : Nat) : chunks w ([] : List α) = [] := by
  simp [chunks]

theorem chunks_eq_nil_iff (w : Nat) (hw : w ≠ 0) (l : List α) :
    chunks w l = [] ↔ l = [] := by
  cases l with
  | nil => simp [chunks]
  | cons x xs => simp [chunks, hw]

theorem chunks_cons (w : Nat) (hw : w ≠ 0) (l : List α) (hl : l ≠ []) :
    chunks w l = l.take w :: chunks w (l.drop w) := by
  cases l with
  | nil => exact absurd rfl hl
  | cons x xs => simp [chunks, hw]

theorem chunks_flatten (w : Nat) (hw : w ≠ 0) (l : List α) :
    (chunks w l).flatten = l := by
  induction l using chunks.induct w with
  | case1 => simp [chunks]
  | case2 x xs h0 => exact absurd h0 hw
  | case3 x xs h0 ih =>
    rw [chunks_cons w hw _ (by simp)]
    simp [List.flatten_cons, ih, List.take_append_drop]

theorem chunks_of_uniform (w : Nat) (hw : w ≠ 0) (L : List (List α))
    (H : ∀ r ∈ L, r.length = w) : chunks w L.flatten = L := by
  induction L with
  | nil => simp [chunks]
  | cons r rs ih =>
    have hr : r.length = w := H r (by simp)
    have hrne : r ≠ [] := by
      intro h
      rw [h] at hr
      exact hw hr.symm
    have hne : r ++ rs.flatten ≠ [] := by
      simp [hrne]
    rw [List.flatten_cons, chunks_cons w hw _ hne,
        List.take_left' hr, List.drop_left' hr,
        ih (fun s hs => H s (by simp [hs]))]

theorem length_mem_chunks_eq (w : Nat) (hw : w ≠ 0) (l : List α)
    (hdvd : w ∣ l.length) : ∀ c ∈ chunks w l, c.length = w := by
  induction l using chunks.induct w with
  | case1 => simp [chunks]
  | case2 x xs h0 => exact absurd h0 hw
  | case3 x xs h0 ih =>
    intro c hc
    rw [chunks_cons w hw _ (by simp)] at hc
    have hlen : w ≤ (x :: xs).length := by
      rcases hdvd with ⟨k, hk⟩
      rcases Nat.eq_zero_or_pos k with hk0 | hk0
      · simp [hk0] at hk
      · calc w = w * 1 := by ring
          _ ≤ w * k := Nat.mul_le_mul_left w hk0
          _ = (x :: xs).length := hk.symm
    rcases List.mem_cons.mp hc with h | h
    · rw [h, List.length_take]
      omega
    · refine ih ?_ c h
      rw [List.length_drop]
      exact (Nat.dvd_sub' hdvd (Nat.dvd_refl w))

end Glium

namespace Glium

theorem chunks_dropLast (w : Nat) (hw : w ≠ 0) (l : List α) :
    ∀ r ∈ (chunks w l).dropLast, r.length = w := by
  induction l using chunks.induct w with
  | case1 => simp [chunks]
  | case2 x xs h0 => exact absurd h0 hw
  | case3 x xs h0 ih =>
    intro r hr
    rw [chunks_cons w hw _ (by simp)] at hr
    by_cases hrest : chunks w ((x :: xs).drop w) = []
    · simp [hrest] at hr
    · rw [List.dropLast_cons_of_ne_nil hrest] at hr
      rcases List.mem_cons.mp hr with h | h
      · have hd : (x :: xs).drop w ≠ [] := by
          intro hnil
          rw [hnil, chunks_nil] at hrest
          exact hrest rfl
        have hlen : w ≤ (x :: xs).length := by
          by_contra hlt
          push_neg at hlt
          exact hd (List.drop_eq_nil_of_le (Nat.le_of_lt hlt))
        rw [h, List.length_take]
        omega
      · exact ih r h

theorem chunks_getLast? (w : Nat) (hw : w ≠ 0) (l : List α)
    (hnd : ¬ w ∣ l.length) :
    ∃ last, (chunks w l).getLast? = some last ∧ last.length = l.length % w := by
  induction l using chunks.induct w with
  | case1 => simp at hnd
  | case2 x xs h0 => exact absurd h0 hw
  | case3 x xs h0 ih =>
    rw [chunks_cons w hw _ (by simp)]
    by_cases hd : (x :: xs).drop w = []
    · have hle : (x :: xs).length ≤ w := List.drop_eq_nil_iff.mp hd
      have hlt : (x :: xs).length < w := by
        rcases Nat.lt_or_ge (x :: xs).length w with h | h
        · exact h
        · have : (x :: xs).length = w := Nat.le_antisymm hle h
          exact absurd (this ▸ Nat.dvd_refl w) hnd
      rw [hd, chunks_nil]
      refine ⟨(x :: xs).take w, rfl, ?_⟩
      have hmod := Nat.mod_eq_of_lt hlt
      rw [List.length_take]
      omega
    · have hrest : chunks w ((x :: xs).drop w) ≠ [] := by
        intro hcon
        exact hd ((chunks_eq_nil_iff w hw _).mp hcon)
      have hwle : w ≤ (x :: xs).length := by
        by_contra hlt
        push_neg at hlt
        exact hd (List.drop_eq_nil_of_le (Nat.le_of_lt hlt))
      have hnd2 : ¬ w ∣ ((x :: xs).drop w).length := by
        rw [List.length_drop]
        intro hcontra
        exact hnd (by
          have := Nat.dvd_add hcontra (Nat.dvd_refl w)
          rwa [Nat.sub_add_cancel hwle] at this)
      rcases ih hnd2 with ⟨last, hl1, hl2⟩
      refine ⟨last, ?_, ?_⟩
      · rcases List.exists_cons_of_ne_nil hrest with ⟨b, t, he⟩
        rw [he] at hl1 ⊢
        rw [List.getLast?_cons_cons]
        exact hl1
      · rw [hl2, List.length_drop]
        exact (Nat.mod_eq_sub_mod hwle).symm

end Glium

namespace Glium

theorem chunks_two (w : Nat) (hw : w ≠ 0) (r s : List α)
    (hr : r.length = w) (hs : s.length = w) : chunks w (r ++ s) = [r, s] := by
  have h := chunks_of_uniform w hw [r, s] (by
    intro t ht
    rcases List.mem_cons.mp ht with h | h
    · rw [h, hr]
    · simp at h
      rw [h, hs])
  simpa using h

/-- Claim C5: for every owned 1D structured buffer `b`, reconstructing from the
flattened sequence of `b` yields `b`'s element sequence exactly, in the same
order, and 1D flattening performs no reordering (`into_vec` returns the
elements in original order). -/
theorem texture1d_roundtrip (P : Type) (b : List P) :
    Vec1d.from_vec (Vec1d.into_vec b) = b ∧ Vec1d.into_vec b = b :=
  ⟨rfl, rfl⟩

/-- Claim C8: for every flat sequence, 1D reconstruction targeting a
borrowed/view representation (`&[P]`) fails fast by panicking (the body is
`panic!()`, modelled as `none`); it never returns a value. -/
theorem slice1d_from_vec_panics (P : Type) (data : List P) :
    Slice1d.from_vec data = none := rfl

/-- Claim C9: for every flat sequence and every width and height, 3D
reconstruction `from_vec` fails loudly (the body is `unimplemented!()`,
modelled as `none`); it never returns a (possibly zeroed or corrupt) 3D
buffer. -/
theorem texture3d_from_vec_unimplemented (P : Type) (data : List P) (width height : Nat) :
    Vec3d.from_vec data width height = none := rfl

/-- Claim C10: for every non-empty flat sequence, 2D reconstruction
`from_vec` on the nested-vector representation with declared width 0 panics
(Rust slice `chunks(0)` asserts, modelled as `none`), rather than returning a
buffer or a DimensionMismatch error. -/
theorem texture2d_from_vec_zero_width_panics (P : Type) (data : List P) (hne : data ≠ []) :
    Vec2d.from_vec data 0 = none := by
  simp [Vec2d.from_vec]

/-- Witness for claim C10 at the concrete non-empty sequence `[0]`. -/
theorem texture2d_from_vec_zero_width_panics_witness :
    ([0] : List Nat) ≠ [] ∧ Vec2d.from_vec ([0] : List Nat) 0 = none :=
  ⟨by decide, texture2d_from_vec_zero_width_panics Nat [0] (by decide)⟩

/-- Counterexample for claim C6: at a concrete nested buffer with 2^32 rows,
the `as u32` cast in `get_dimensions` truncates the height component to 0,
which is not the number of rows; so `dimensions()` does not always return the
row count. -/
theorem get_dimensions_truncates :
    (Vec2d.get_dimensions (List.replicate 4294967296 ([] : List Nat))).2 ≠
      (List.replicate 4294967296 ([] : List Nat)).length := by
  have hgen : ∀ (b : List (List Nat)), (Vec2d.get_dimensions b).2 = b.length % u32Mod :=
    fun b => rfl
  rw [hgen, List.length_replicate]
  decide

/-- Claim C6 (amended): for every nested 2D structured buffer whose row count
and row lengths are below 2^32 (so the `as u32` casts do not truncate),
`get_dimensions` returns `(width, height)` where `height` is the number of
rows and `width` is the length of the first row, or 0 when there are no rows;
in particular a buffer with 4 rows of 8 elements yields `(8, 4)` and an empty
buffer yields `(0, 0)`, never an error. -/
theorem get_dimensions_correct (P : Type) (b : List (List P))
    (hh : b.length < 4294967296)
    (hw : ∀ r ∈ b, r.length < 4294967296) :
    Vec2d.get_dimensions b =
      ((match b with | [] => 0 | r :: _ => r.length), b.length) := by
  cases b with
  | nil => simp [Vec2d.get_dimensions, u32Mod]
  | cons r rs =>
    have h1 : r.length < 4294967296 := hw r (by simp)
    simp only [Vec2d.get_dimensions, u32Mod, List.head?_cons, Option.map_some',
      Option.getD_some]
    simp only [List.length_cons] at hh ⊢
    rw [Nat.mod_eq_of_lt h1, Nat.mod_eq_of_lt hh]

/-- Witness for claim C6 at the spec's two concrete buffers: 4 rows of 8
elements and the empty buffer. -/
theorem get_dimensions_correct_witness :
    Vec2d.get_dimensions (List.replicate 4 (List.replicate 8 (0 : Nat))) = (8, 4) ∧
    Vec2d.get_dimensions ([] : List (List Nat)) = (0, 0) := by
  constructor
  · have h := get_dimensions_correct Nat (List.replicate 4 (List.replicate 8 0))
      (by decide) (by decide)
    simpa [List.replicate] using h
  · have h := get_dimensions_correct Nat [] (by decide) (by decide)
    simpa using h

/-- Claim C4: for every rectangular row-major 2D structured buffer `B` (a
vector of rows all of length `w`, with `w > 0`), flattening `B` and then
reconstructing from the flat sequence with width `w` (same row-order
convention on both sides: `Vec<Vec<P>>` performs no row flipping) reproduces
`B` row-for-row. -/
theorem texture2d_roundtrip (P : Type) (B : List (List P)) (w : Nat)
    (hw : 0 < w) (hrect : ∀ r ∈ B, r.length = w) :
    Vec2d.from_vec (Vec2d.into_vec B) w = some B := by
  have hw0 : w ≠ 0 := Nat.pos_iff_ne_zero.mp hw
  rw [Vec2d.into_vec, Vec2d.from_vec, if_neg hw0,
    chunks_of_uniform w hw0 B hrect]

/-- Witness for claim C4 at the concrete 2x2 buffer `[[1,2],[3,4]]`. -/
theorem texture2d_roundtrip_witness :
    0 < 2 ∧ (∀ r ∈ ([[1, 2], [3, 4]] : List (List Nat)), r.length = 2) ∧
      Vec2d.from_vec (Vec2d.into_vec ([[1, 2], [3, 4]] : List (List Nat))) 2 =
        some [[1, 2], [3, 4]] :=
  ⟨by decide, by decide, texture2d_roundtrip Nat [[1, 2], [3, 4]] 2 (by decide) (by decide)⟩

/-- Counterexample for claim C3: reconstructing from a 10-element flat
sequence with declared width 3 does not fail with a DimensionMismatch error;
`from_vec` returns a (ragged) buffer whose last row holds the single leftover
element, because Rust slice `chunks` allows a shorter final chunk and
`from_vec` performs no divisibility check at all. -/
theorem from_vec_indivisible_returns_buffer :
    Vec2d.from_vec ([0, 1, 2, 3, 4, 5, 6, 7, 8, 9] : List Nat) 3 =
      some [[0, 1, 2], [3, 4, 5], [6, 7, 8], [9]] := by
  simp [Vec2d.from_vec, chunks]

/-- Claim C3 (amended): for every flat sequence and every width `w > 0` that
does not divide the element count, 2D reconstruction `from_vec` does not fail:
it returns a buffer whose rows concatenate back to the input, in which every
row except the last has length `w` and the last row holds the remaining
`len mod w` elements (fewer than `w`); no DimensionMismatch error is reported. -/
theorem from_vec_indivisible (P : Type) (data : List P) (w : Nat)
    (hw : 0 < w) (hnd : ¬ w ∣ data.length) :
    ∃ rows, Vec2d.from_vec data w = some rows ∧
      rows.flatten = data ∧
      (∀ r ∈ rows.dropLast, r.length = w) ∧
      ∃ last, rows.getLast? = some last ∧
        last.length = data.length % w ∧ last.length < w := by
  have hw0 : w ≠ 0 := Nat.pos_iff_ne_zero.mp hw
  refine ⟨chunks w data, by simp [Vec2d.from_vec, hw0],
    chunks_flatten w hw0 data, chunks_dropLast w hw0 data, ?_⟩
  rcases chunks_getLast? w hw0 data hnd with ⟨last, h1, h2⟩
  exact ⟨last, h1, h2, h2 ▸ Nat.mod_lt _ hw⟩

/-- Witness for claim C3 at the spec's concrete input: a 10-element sequence
with declared width 3. -/
theorem from_vec_indivisible_witness :
    0 < 3 ∧ ¬ (3 ∣ ([0, 1, 2, 3, 4, 5, 6, 7, 8, 9] : List Nat).length) ∧
      (∃ rows, Vec2d.from_vec ([0, 1, 2, 3, 4, 5, 6, 7, 8, 9] : List Nat) 3 = some rows ∧
        rows.flatten = [0, 1, 2, 3, 4, 5, 6, 7, 8, 9] ∧
        (∀ r ∈ rows.dropLast, r.length = 3) ∧
        ∃ last, rows.getLast? = some last ∧
          last.length = ([0, 1, 2, 3, 4, 5, 6, 7, 8, 9] : List Nat).length % 3 ∧
          last.length < 3) :=
  ⟨by decide, by decide,
    from_vec_indivisible Nat [0, 1, 2, 3, 4, 5, 6, 7, 8, 9] 3 (by decide) (by decide)⟩

/-- Counterexample for claim C1: the claim quantifies over every row width
`w` dividing the length of `S`, and `w = 0` divides the length of the empty
sequence, yet there the chunk-reverse-reflatten step panics (Rust `chunks`
asserts a nonzero chunk size) instead of yielding `S` back. -/
theorem flip_involution_counterexample :
    (0 : Nat) ∣ ([] : List Nat).length ∧
      (flip 0 ([] : List Nat)).bind (flip 0) ≠ some [] := by
  constructor
  · simp
  · simp [flip]

/-- Claim C1 (amended): the row-order flip transform is an involution on
positive row widths: for every flat pixel sequence `S` and every row width
`w > 0` (in elements) that divides the length of `S`, reversing the order of
the `w`-sized scanlines of `S` twice yields `S` again, as realized by the
chunk-reverse-reflatten step of the image-buffer 2D contract. -/
theorem flip_involution {α : Type} (S : List α) (w : Nat)
    (hw : 0 < w) (hdvd : w ∣ S.length) :
    (flip w S).bind (flip w) = some S := by
  have hw0 : w ≠ 0 := Nat.pos_iff_ne_zero.mp hw
  have huni : ∀ r ∈ (chunks w S).reverse, r.length = w := by
    intro r hr
    exact length_mem_chunks_eq w hw0 S hdvd r (List.mem_reverse.mp hr)
  simp only [flip, if_neg hw0, Option.some_bind, Option.some.injEq]
  rw [chunks_of_uniform w hw0 _ huni, List.reverse_reverse, chunks_flatten w hw0]

/-- Witness for claim C1 at the concrete sequence `[1,2,3,4]` with width 2. -/
theorem flip_involution_witness :
    0 < 2 ∧ (2 : Nat) ∣ ([1, 2, 3, 4] : List Nat).length ∧
      (flip 2 ([1, 2, 3, 4] : List Nat)).bind (flip 2) = some [1, 2, 3, 4] :=
  ⟨by decide, by decide, flip_involution [1, 2, 3, 4] 2 (by decide) (by decide)⟩

/-- Claim C7: format inference is deterministic and instance-independent: for
every supported pixel element type `P`, any two calls to `get_format` (with
any instances or no instance, for both the 1D and the 2D contract) return the
same `ClientFormat` value, namely the registry's per-type constant; the
operation is a total function with no failure path. -/
theorem get_format_deterministic (P : Type) [PixelValue P]
    (o₁ o₂ : Option (List P)) (q₁ q₂ : Option (List (List P))) :
    Vec1d.get_format P o₁ = Vec1d.get_format P o₂ ∧
    Vec2d.get_format P q₁ = Vec2d.get_format P q₂ ∧
    Vec1d.get_format P o₁ = PixelValue.get_format P ∧
    Vec2d.get_format P q₁ = PixelValue.get_format P :=
  ⟨rfl, rfl, rfl, rfl⟩

end Glium

namespace Glium

/-- Claim C2: for every 2x2 image buffer of 4-channel pixels whose row 0 is
`[A, B]` and row 1 is `[C, D]` (raw storage `a ++ b ++ c ++ d`, each pixel's
4 channel values contiguous), flattening with the source's top-first to GPU
bottom-first conversion (`into_vec`) produces the flat sequence
`[C, D, A, B]`, and reconstructing that sequence with width 2 and the inverse
conversion (`from_vec`) yields back the original buffer `[[A, B], [C, D]]`. -/
theorem imagebuffer_2x2_roundtrip (T : Type) (a b c d : List T)
    (ha : a.length = 4) (hb : b.length = 4) (hc : c.length = 4) (hd : d.length = 4) :
    ImageBuffer.into_vec 4 ⟨2, 2, a ++ b ++ c ++ d⟩ = some (c ++ d ++ a ++ b) ∧
    ImageBuffer.from_vec 4 (c ++ d ++ a ++ b) 2 = some ⟨2, 2, a ++ b ++ c ++ d⟩ := by
  have hab : (a ++ b).length = 8 := by simp [ha, hb]
  have hcd : (c ++ d).length = 8 := by simp [hc, hd]
  have h1 : chunks 8 ((a ++ b) ++ (c ++ d)) = [a ++ b, c ++ d] :=
    chunks_two 8 (by decide) _ _ hab hcd
  have h2 : chunks 8 ((c ++ d) ++ (a ++ b)) = [c ++ d, a ++ b] :=
    chunks_two 8 (by decide) _ _ hcd hab
  have he1 : a ++ b ++ c ++ d = (a ++ b) ++ (c ++ d) := by simp [List.append_assoc]
  have he2 : c ++ d ++ a ++ b = (c ++ d) ++ (a ++ b) := by simp [List.append_assoc]
  have hflip1 : flip 8 (a ++ b ++ c ++ d) = some (c ++ d ++ a ++ b) := by
    rw [he1]
    unfold flip
    rw [if_neg (by decide : ¬ ((8 : Nat) = 0)), h1]
    rw [he2]
    simp
  have hflip2 : flip 8 (c ++ d ++ a ++ b) = some (a ++ b ++ c ++ d) := by
    rw [he2]
    unfold flip
    rw [if_neg (by decide : ¬ ((8 : Nat) = 0)), h2]
    rw [he1]
    simp
  constructor
  · show flip (2 * 4) (a ++ b ++ c ++ d) = some (c ++ d ++ a ++ b)
    rw [show (2 * 4 : Nat) = 8 from rfl]
    exact hflip1
  · have hlen2 : (c ++ d ++ a ++ b).length = 16 := by simp [ha, hb, hc, hd]
    have hlen1 : (a ++ b ++ c ++ d).length = 16 := by simp [ha, hb, hc, hd]
    unfold ImageBuffer.from_vec
    rw [if_neg (by decide : ¬ ((2 * 4 : Nat) % u32Mod = 0))]
    rw [show (2 * 4 : Nat) = 8 from rfl, hflip2, hlen2]
    show ImageBuffer.from_raw 4 2 (16 % u32Mod / (8 % u32Mod)) (a ++ b ++ c ++ d) =
      some ⟨2, 2, a ++ b ++ c ++ d⟩
    unfold ImageBuffer.from_raw
    have hcond : (a ++ b ++ c ++ d).length = 2 * (16 % u32Mod / (8 % u32Mod)) * 4 := by
      rw [hlen1]
      decide
    rw [if_pos hcond]
    have hheight : 16 % u32Mod / (8 % u32Mod) = 2 := by decide
    rw [hheight]

/-- Witness for claim C2 at concrete pixels with channel values 0..15. -/
theorem imagebuffer_2x2_roundtrip_witness :
    ([0, 1, 2, 3] : List Nat).length = 4 ∧
      ImageBuffer.into_vec 4 ⟨2, 2, ([0, 1, 2, 3] ++ [4, 5, 6, 7] ++ [8, 9, 10, 11] ++ [12, 13, 14, 15] : List Nat)⟩ =
        some ([8, 9, 10, 11] ++ [12, 13, 14, 15] ++ [0, 1, 2, 3] ++ [4, 5, 6, 7]) ∧
      ImageBuffer.from_vec 4 (([8, 9, 10, 11] ++ [12, 13, 14, 15] ++ [0, 1, 2, 3] ++ [4, 5, 6, 7] : List Nat)) 2 =
        some ⟨2, 2, [0, 1, 2, 3] ++ [4, 5, 6, 7] ++ [8, 9, 10, 11] ++ [12, 13, 14, 15]⟩ := by
  have h := imagebuffer_2x2_roundtrip Nat [0, 1, 2, 3] [4, 5, 6, 7] [8, 9, 10, 11]
    [12, 13, 14, 15] (by decide) (by decide) (by decide) (by decide)
  exact ⟨by decide, h.1, h.2⟩

end Glium
